import Mathlib

/-!
Shallow embedding of the classification / validation / merge-reconciliation
pipeline of the Shopify-Fraud-Guard-Disputes app, together with theorems
settling the frozen claims about it.

Embedded source files:
* `src/services/csvService.ts`     — `parseCSVLine`, `parseShopifyCSV` and helpers
* `src/services/shopifyService.ts` — `validateOrder`, `determineCategoryFromTags`,
  `forceApproveOrder` (the versions at lines 500-635 of the file, which are the
  ones the claims cite)
* `src/services/storageService.ts` — `statusRank`, `mapDisputeStatus`,
  `inferImportSource` and the pure merge step of `saveOrdersToDb`

JavaScript-runtime functions that the code calls but that are not part of the
repository (`Date.parse`, `Date.prototype.toLocaleDateString`,
`Date.prototype.toISOString`, `parseFloat`, `parseInt`) are abstracted as an
explicit environment `JsEnv` of oracles; every theorem quantifies over the
environment, and witnesses instantiate it with concrete functions.
JS `number` is modelled as `Int` (no claim concerns numeric arithmetic).
-/

set_option autoImplicit false

namespace FraudGuard

/-!
Models of the JavaScript string methods the services use.  They are written
over `List Char` (rather than through the `String` API) so that every
definition evaluates by kernel reduction; each is a direct model of the
corresponding JS method.
-/

/-- JS `String.prototype.includes`: substring test. -/
def jsIncludes (s pat : String) : Bool :=
  (List.range (s.data.length + 1)).any
    (fun i => List.isPrefixOf pat.data (s.data.drop i))

/-- JS `String.prototype.trim`: strip leading and trailing whitespace. -/
def jsTrim (s : String) : String :=
  String.mk
    (((s.data.dropWhile Char.isWhitespace).reverse.dropWhile Char.isWhitespace).reverse)

/-- JS `String.prototype.toLowerCase` (ASCII case folding). -/
def jsLower (s : String) : String := String.mk (s.data.map Char.toLower)

def splitOnCharGo (sep : Char) : List Char → String → List String → List String
  | [], current, acc => acc ++ [current]
  | c :: rest, current, acc =>
      if c = sep then splitOnCharGo sep rest "" (acc ++ [current])
      else splitOnCharGo sep rest (current.push c) acc

/-- JS `String.prototype.split` with a one-character separator (the services
only ever split on newline, comma and at-sign). -/
def splitOnChar (sep : Char) (s : String) : List String :=
  splitOnCharGo sep s.data "" []

/-- JS `Array.prototype.join` (used on the error-reason lists). -/
def joinSep (sep : String) : List String → String
  | [] => ""
  | [a] => a
  | a :: rest => a ++ sep ++ joinSep sep rest

/-- `/\d/.test(str)` from both `csvService.ts` and `shopifyService.ts`
(`hasNumbers`): the string contains an ASCII digit. -/
def hasNumbers (str : String) : Bool := str.data.any Char.isDigit

/-- The email regex `/^[^\s@]+@[^\s@]+\.[^\s@]+$/` shared by `csvService.ts`
and `shopifyService.ts` (`isValidEmail`).  A string matches iff it decomposes
as `local@domain` with exactly one `@`, no whitespace anywhere, nonempty
local part, and the domain containing a dot that is neither its first nor its
last character (the pieces around that dot are the `[^\s@]+` groups, which may
themselves contain further dots).  JS `\s` is approximated by
`Char.isWhitespace`. -/
def isValidEmail (email : String) : Bool :=
  match splitOnChar '@' email with
  | [l, d] =>
      l ≠ "" ∧ l.data.all (fun c => ¬ c.isWhitespace) ∧
        d.data.all (fun c => ¬ c.isWhitespace) ∧
        (List.range d.data.length).any
          (fun i => i ≠ 0 ∧ i + 1 ≠ d.data.length ∧ d.data.getD i ' ' = '.')
  | _ => false

/-- the tag-quote-stripping replace call applied to a tag in `csvService.ts`: removes one
leading and one trailing double quote, if present. -/
def stripEdgeQuotes (s : String) : String :=
  let cs := s.data
  let cs1 := if cs.head? = some '"' then cs.tail else cs
  String.mk (if cs1.getLast? = some '"' then cs1.dropLast else cs1)

/-- First-match association-list lookup, modelling `Map.prototype.get` /
`Map.prototype.has` on the insertion-ordered `orderMap`. -/
def alookup {α : Type} : List (String × α) → String → Option α
  | [], _ => none
  | p :: rest, k => if p.1 = k then some p.2 else alookup rest k

/-- In-place update of the value stored under key `k` (modelling mutation of
the object held in the `Map`). -/
def aupdate {α : Type} (m : List (String × α)) (k : String) (f : α → α) :
    List (String × α) :=
  m.map (fun p => if p.1 = k then (p.1, f p.2) else p)

/-- JS plain-object assignment `obj[k] = v`: if the key is present its value
is overwritten in place, otherwise the pair is appended (JS objects preserve
first-insertion key order). -/
def assocSet (m : List (String × String)) (k v : String) :
    List (String × String) :=
  if (alookup m k).isSome then
    m.map (fun p => if p.1 = k then (p.1, v) else p)
  else m ++ [(k, v)]

/-! ## Data model (`src/types.ts`) -/

inductive PaymentStatus
  | PAID | PENDING | REFUNDED | VOIDED | PARTIALLY_REFUNDED
  deriving DecidableEq, Repr

inductive FulfillmentStatus
  | FULFILLED | UNFULFILLED | PARTIAL
  deriving DecidableEq, Repr

inductive DeliveryStatus
  | DELIVERED | IN_TRANSIT | NO_STATUS
  deriving DecidableEq, Repr

inductive DisputeStatus
  | NONE | NEEDS_RESPONSE | UNDER_REVIEW | WON | LOST
  deriving DecidableEq, Repr

/-- Values the persisted `import_category` / `original_category` string field
takes: the six operator-selectable categories plus the quarantine marker
`INVALID` that only the code itself assigns. -/
inductive ImportCategory
  | AUTO | RISK | DISPUTE_OPEN | DISPUTE_SUBMITTED | DISPUTE_WON
  | DISPUTE_LOST | INVALID
  deriving DecidableEq, Repr

/-- The TS type `ImportCategory` of the `category` parameter of
`parseShopifyCSV` — operator-facing, so `INVALID` is excluded. -/
inductive OpCategory
  | AUTO | RISK | DISPUTE_OPEN | DISPUTE_SUBMITTED | DISPUTE_WON | DISPUTE_LOST
  deriving DecidableEq, Repr

/-- Embed an operator category into the stored-category type. -/
def OpCategory.toImportCategory : OpCategory → ImportCategory
  | .AUTO => .AUTO
  | .RISK => .RISK
  | .DISPUTE_OPEN => .DISPUTE_OPEN
  | .DISPUTE_SUBMITTED => .DISPUTE_SUBMITTED
  | .DISPUTE_WON => .DISPUTE_WON
  | .DISPUTE_LOST => .DISPUTE_LOST

structure Customer where
  id : String
  name : String
  email : String
  location : String
  ordersCount : Nat
  deriving DecidableEq, Repr

/-- The `Order` interface of `src/types.ts`, together with the extra fields
the services attach (`original_category`, `import_error`, `additional_data`).
Optional TS fields are `Option`s; JS numbers are `Int`. -/
structure Order where
  id : String
  date : String
  customer : Customer
  channel : String
  total : Int
  paymentStatus : PaymentStatus
  fulfillmentStatus : FulfillmentStatus
  itemsCount : Int
  deliveryStatus : DeliveryStatus
  deliveryMethod : String
  tags : List String
  isHighRisk : Bool
  disputeStatus : DisputeStatus
  disputeDeadline : Option String
  created_at : Option String
  currency : Option String
  risk_category : Option String
  import_category : Option ImportCategory
  original_category : Option ImportCategory
  import_error : Option String
  additional_data : List (String × String)
  deriving DecidableEq, Repr

/-- Oracles for the JavaScript runtime functions used by the pipeline but not
defined in the repository. -/
structure JsEnv where
  /-- `!isNaN(Date.parse(s))` -/
  dateOk : String → Bool
  /-- `new Date(s).toLocaleDateString(...)` -/
  fmtDate : String → String
  /-- `new Date().toISOString()` at the moment of the import -/
  nowISO : String
  /-- `parseFloat` (JS number modelled as `Int`) -/
  parseFloatD : String → Int
  /-- `parseInt`; `none` models `NaN` -/
  parseQty : String → Option Int

/-! ## `src/services/csvService.ts` -/

/-- `parseCSVLine`: split one CSV line on commas, honouring double-quoted
fields in which a doubled quote is an escaped literal quote. -/
def parseCSVLineGo : List Char → Bool → String → List String → List String
  | [], _, current, result => result ++ [current]
  | '"' :: '"' :: rest, true, current, result =>
      parseCSVLineGo rest true (current.push '"') result
  | '"' :: rest, true, current, result =>
      parseCSVLineGo rest false current result
  | '"' :: rest, false, current, result =>
      parseCSVLineGo rest true current result
  | ',' :: rest, inQuotes, current, result =>
      if inQuotes then parseCSVLineGo rest true (current.push ',') result
      else parseCSVLineGo rest false "" (result ++ [current])
  | c :: rest, inQuotes, current, result =>
      parseCSVLineGo rest inQuotes (current.push c) result

def parseCSVLine (line : String) : List String :=
  parseCSVLineGo line.data false "" []

/-- `mapFinancialStatus` from `csvService.ts`. -/
def mapFinancialStatus (status : String) : PaymentStatus :=
  let s := jsLower status
  if s = "paid" then .PAID
  else if s = "pending" then .PENDING
  else if s = "refunded" then .REFUNDED
  else if jsIncludes s "partially" then .PARTIALLY_REFUNDED
  else if s = "voided" then .VOIDED
  else .PENDING

/-- `mapFulfillmentStatus` from `csvService.ts`. -/
def mapFulfillmentStatus (status : String) : FulfillmentStatus :=
  let s := jsLower status
  if s = "fulfilled" then .FULFILLED
  else if s = "partial" then .PARTIAL
  else .UNFULFILLED

/-- `getIndex`: `headers.indexOf(name.toLowerCase())`, with `none` playing the
role of `-1`. -/
def getIndex (headers : List String) (name : String) : Option Nat :=
  headers.findIdx? (fun h => h = jsLower name)

/-- The `idx` record of resolved column positions. -/
structure Idx where
  name : Option Nat
  createdAt : Option Nat
  email : Option Nat
  financial : Option Nat
  fulfillment : Option Nat
  total : Option Nat
  currency : Option Nat
  tags : Option Nat
  riskLevel : Option Nat
  shippingName : Option Nat
  shippingCity : Option Nat
  shippingProvince : Option Nat
  shippingCountry : Option Nat
  shippingMethod : Option Nat
  lineItemQty : Option Nat
  cancelReason : Option Nat
  deriving Repr

/-- The `val(index)` accessor of the row loop: out-of-range or missing
(`-1`) indices and empty cells give the empty string, everything else is
trimmed. -/
def val (row : List String) : Option Nat → String
  | some i => jsTrim (row.getD i "")
  | none => ""

/-- The `errorReasons` list accumulated for one data row
(`csvService.ts` lines 96-117).  The AUTO-only guard on the
missing-tags check is the one C8 is about. -/
def rowErrorReasons (env : JsEnv) (category : OpCategory) (idx : Idx)
    (row : List String) : List String :=
  let rawId := val row idx.name
  let rawDate := val row idx.createdAt
  let rawEmail := val row idx.email
  let rawTags := val row idx.tags
  (if rawId = "" ∨ ¬ hasNumbers rawId then ["Invalid Order #"] else []) ++
  (if rawDate = "" ∨ ¬ env.dateOk rawDate then ["Invalid Date"] else []) ++
  (if rawEmail = "" ∨ ¬ isValidEmail rawEmail then ["Invalid Email"] else []) ++
  (if category = .AUTO ∧ (rawTags = "" ∨ (jsTrim rawTags).length = 0)
   then ["Missing Tags"] else [])

/-- The raw per-order object stored in `orderMap` before finalisation. -/
structure RawOrder where
  id : String
  date : String
  email : String
  financial : String
  fulfillment : String
  total : Int
  currency : String
  tags : List String
  nativeRisk : Bool
  customerName : String
  location : String
  shippingMethod : String
  itemsCount : Int
  isCancelled : Bool
  additional_data : List (String × String)
  isInvalid : Bool
  importError : String
  deriving DecidableEq, Repr

/-- The `extraData` object: every raw header mapped to the value of the row at that
column. -/
def buildExtra (rawHeaders : List String) (row : List String) :
    List (String × String) :=
  rawHeaders.enum.foldl (fun m p => assocSet m p.2 (val row (some p.1))) []

/-- The object inserted into `orderMap` on first sight of an id
(`csvService.ts` lines 127-156). -/
def mkRawOrder (env : JsEnv) (category : OpCategory) (rawHeaders : List String)
    (idx : Idx) (i : Nat) (row : List String) : RawOrder :=
  let rawId := val row idx.name
  let rawDate := val row idx.createdAt
  let rawEmail := val row idx.email
  let rawTags := val row idx.tags
  let reasons := rowErrorReasons env category idx row
  let csvRisk := jsLower (val row idx.riskLevel)
  let city := val row idx.shippingCity
  let country := val row idx.shippingCountry
  { id := if rawId = "" then "BAD-ROW-" ++ toString i else rawId
    date := if rawDate = "" then "N/A" else rawDate
    email := if rawEmail = "" then "N/A" else rawEmail
    financial := val row idx.financial
    fulfillment := val row idx.fulfillment
    total := env.parseFloatD (if val row idx.total = "" then "0" else val row idx.total)
    currency := if val row idx.currency = "" then "USD" else val row idx.currency
    tags := if rawTags = "" then []
            else ((splitOnChar ',' rawTags).map (fun t => stripEdgeQuotes (jsTrim t))).filter
              (fun t => t ≠ "")
    nativeRisk := csvRisk = "high" ∨ csvRisk = "medium"
    customerName := if val row idx.shippingName = "" then "Unknown"
                    else val row idx.shippingName
    location := if city = "" ∧ country = "" then "Unknown"
                else joinSep ", " ([city, country].filter (fun s => s ≠ ""))
    shippingMethod := val row idx.shippingMethod
    itemsCount := 0
    isCancelled := val row idx.cancelReason ≠ ""
    additional_data := buildExtra rawHeaders row
    isInvalid := reasons ≠ []
    importError := joinSep ", " reasons }

/-- One iteration of the row loop of `parseShopifyCSV` (`csvService.ts`
lines 83-161): skip blank lines, insert a fresh raw order the first time an id
(or its `BAD-ROW-i` substitute) is seen, then accumulate the line-item
quantity onto the stored entry. -/
def processRow (env : JsEnv) (category : OpCategory) (rawHeaders : List String)
    (idx : Idx) (m : List (String × RawOrder)) (i : Nat) (rawLine : String) :
    List (String × RawOrder) :=
  let line := jsTrim rawLine
  if line = "" then m
  else
    let row := parseCSVLine line
    let rawId := val row idx.name
    let mapId := if rawId = "" then "BAD-ROW-" ++ toString i else rawId
    let m1 := if (alookup m mapId).isSome then m
              else m ++ [(mapId, mkRawOrder env category rawHeaders idx i row)]
    let qtyStr := val row idx.lineItemQty
    let add : Int :=
      match env.parseQty (if qtyStr = "" then "0" else qtyStr) with
      | some q => if q > 0 then q else 0
      | none => 0
    aupdate m1 mapId (fun o => { o with itemsCount := o.itemsCount + add })

/-- Result of the category-determination block (`csvService.ts`
lines 164-206). -/
structure CsvClassification where
  status : DisputeStatus
  isHighRisk : Bool
  importCat : ImportCategory
  injectedTag : String
  deriving DecidableEq, Repr

/-- The category/dispute-status/risk determination of `parseShopifyCSV`
(`csvService.ts` lines 164-206): explicit operator categories are
authoritative; `AUTO` inspects the case-folded tags in the fixed priority
order won > lost > submitted/review > chargeback/dispute > fraud/risk/high. -/
def classifyCSV (category : OpCategory) (tags : List String)
    (nativeRisk : Bool) : CsvClassification :=
  let lowerTags := tags.map jsLower
  match category with
  | .DISPUTE_OPEN =>
      ⟨.NEEDS_RESPONSE, true, .DISPUTE_OPEN, "Import: Open Dispute"⟩
  | .DISPUTE_SUBMITTED =>
      ⟨.UNDER_REVIEW, nativeRisk, .DISPUTE_SUBMITTED, "Import: Submitted"⟩
  | .DISPUTE_WON => ⟨.WON, nativeRisk, .DISPUTE_WON, "Import: Won"⟩
  | .DISPUTE_LOST => ⟨.LOST, nativeRisk, .DISPUTE_LOST, "Import: Lost"⟩
  | .RISK => ⟨.NONE, true, .RISK, "Import: Fraud"⟩
  | .AUTO =>
      if lowerTags.any (fun t => jsIncludes t "won") then
        ⟨.WON, nativeRisk, .DISPUTE_WON, ""⟩
      else if lowerTags.any (fun t => jsIncludes t "lost") then
        ⟨.LOST, nativeRisk, .DISPUTE_LOST, ""⟩
      else if lowerTags.any (fun t => jsIncludes t "submitted" || jsIncludes t "review") then
        ⟨.UNDER_REVIEW, nativeRisk, .DISPUTE_SUBMITTED, ""⟩
      else if lowerTags.any (fun t => jsIncludes t "chargeback" || jsIncludes t "dispute") then
        ⟨.NEEDS_RESPONSE, true, .DISPUTE_OPEN, ""⟩
      else if lowerTags.any (fun t => jsIncludes t "fraud" || jsIncludes t "risk" || jsIncludes t "high") then
        ⟨.NONE, true, .RISK, ""⟩
      else ⟨.NONE, nativeRisk, .AUTO, ""⟩

/-- Finalisation of one raw order into an `Order` (`csvService.ts`
lines 163-274): classification, idempotent marker-tag injection, then either
the quarantine shape (`import_category = INVALID`, risk and dispute cleared,
the computed category remembered in `original_category`) or the valid shape. -/
def finalizeOrder (env : JsEnv) (category : OpCategory) (o : RawOrder) : Order :=
  let c := classifyCSV category o.tags o.nativeRisk
  let finalTags :=
    o.tags ++ (if c.injectedTag ≠ "" ∧ ¬ o.tags.contains c.injectedTag
               then [c.injectedTag] else [])
  if o.isInvalid then
    { id := o.id
      date := o.date
      created_at := some env.nowISO
      customer := { id := o.email, name := o.customerName, email := o.email,
                    location := o.location, ordersCount := 0 }
      channel := "Import Error"
      total := o.total
      currency := some o.currency
      paymentStatus := .PENDING
      fulfillmentStatus := .UNFULFILLED
      itemsCount := o.itemsCount
      deliveryStatus := .NO_STATUS
      deliveryMethod := "Unknown"
      tags := finalTags
      isHighRisk := false
      disputeStatus := .NONE
      import_category := some .INVALID
      original_category := some c.importCat
      import_error := some o.importError
      additional_data := o.additional_data
      risk_category := none
      disputeDeadline := none }
  else
    { id := o.id
      date := env.fmtDate o.date
      created_at := some o.date
      customer := { id := o.email, name := o.customerName, email := o.email,
                    location := o.location, ordersCount := 1 }
      channel := "CSV Import"
      total := o.total
      currency := some o.currency
      paymentStatus := mapFinancialStatus o.financial
      fulfillmentStatus := mapFulfillmentStatus o.fulfillment
      itemsCount := o.itemsCount
      deliveryStatus := if jsLower o.fulfillment = "fulfilled" then .DELIVERED
                        else .NO_STATUS
      deliveryMethod := o.shippingMethod
      tags := finalTags
      isHighRisk := c.isHighRisk
      risk_category := some (if c.isHighRisk then "High Risk" else "Normal")
      disputeStatus := c.status
      disputeDeadline := if c.status = .NEEDS_RESPONSE then some "Review CSV Data"
                         else none
      import_category := some c.importCat
      original_category := none
      import_error := none
      additional_data := o.additional_data }

/-- The trimmed input split into lines. -/
def csvLines (csvText : String) : List String := splitOnChar '\n' (jsTrim csvText)

/-- `parseCSVLine(lines[0])`. -/
def csvRawHeaders (csvText : String) : List String :=
  parseCSVLine ((csvLines csvText).headD "")

/-- `rawHeaders.map(h => h.trim().toLowerCase())`. -/
def csvHeaders (csvText : String) : List String :=
  (csvRawHeaders csvText).map (fun h => jsLower (jsTrim h))

/-- The `idx` column map of `parseShopifyCSV`. -/
def csvIdx (csvText : String) : Idx :=
  let headers := csvHeaders csvText
  { name := getIndex headers "Name"
    createdAt := getIndex headers "Created at"
    email := getIndex headers "Email"
    financial := getIndex headers "Financial Status"
    fulfillment := getIndex headers "Fulfillment Status"
    total := getIndex headers "Total"
    currency := getIndex headers "Currency"
    tags := getIndex headers "Tags"
    riskLevel := getIndex headers "Risk Level"
    shippingName := getIndex headers "Shipping Name"
    shippingCity := getIndex headers "Shipping City"
    shippingProvince := getIndex headers "Shipping Province"
    shippingCountry := getIndex headers "Shipping Country"
    shippingMethod := getIndex headers "Shipping Method"
    lineItemQty := getIndex headers "Lineitem quantity"
    cancelReason := getIndex headers "Cancelled at" }

/-- `parseShopifyCSV` (`csvService.ts` lines 52-275).  Thrown exceptions are
modelled as `Except.error` with the exact message. -/
def parseShopifyCSV (env : JsEnv) (csvText : String)
    (category : OpCategory := .AUTO) : Except String (List Order) :=
  let lines := csvLines csvText
  if lines.length < 2 then .error "CSV file is empty or invalid."
  else
    let idx := csvIdx csvText
    match idx.name with
    | none => .error "Invalid CSV: Missing \x27Name\x27 column."
    | some _ =>
        let m := (lines.enum.drop 1).foldl
          (fun m p => processRow env category (csvRawHeaders csvText) idx m p.1 p.2) []
        .ok (m.map (fun p => finalizeOrder env category p.2))


/-! ## `src/services/shopifyService.ts` (lines 500-635) -/

/-- The classification triple used by the recovery and manual-approval paths
of `shopifyService.ts`. -/
structure Classification where
  category : ImportCategory
  status : DisputeStatus
  isHighRisk : Bool
  deriving DecidableEq, Repr

/-- `determineCategoryFromTags` (`shopifyService.ts` lines 568-584): tag-based
auto-detection over the case-folded tags, priority won > lost >
submitted/"under review" > open/chargeback/dispute; `none` when no tag
matches. -/
def determineCategoryFromTags (tags : List String) : Option Classification :=
  let lowerTags := tags.map jsLower
  if lowerTags.any (fun t => jsIncludes t "won") then
    some ⟨.DISPUTE_WON, .WON, false⟩
  else if lowerTags.any (fun t => jsIncludes t "lost") then
    some ⟨.DISPUTE_LOST, .LOST, false⟩
  else if lowerTags.any (fun t => jsIncludes t "submitted" || jsIncludes t "under review") then
    some ⟨.DISPUTE_SUBMITTED, .UNDER_REVIEW, true⟩
  else if lowerTags.any (fun t => jsIncludes t "open" || jsIncludes t "chargeback" || jsIncludes t "dispute") then
    some ⟨.DISPUTE_OPEN, .NEEDS_RESPONSE, true⟩
  else none

/-- The restore table inlined at `shopifyService.ts` lines 541-545: map a
remembered concrete category back to its classification; the trailing `else`
of the source sends any other remembered value to the RISK bucket. -/
def restoreClassification : ImportCategory → Classification
  | .DISPUTE_WON => ⟨.DISPUTE_WON, .WON, false⟩
  | .DISPUTE_LOST => ⟨.DISPUTE_LOST, .LOST, false⟩
  | .DISPUTE_SUBMITTED => ⟨.DISPUTE_SUBMITTED, .UNDER_REVIEW, true⟩
  | .DISPUTE_OPEN => ⟨.DISPUTE_OPEN, .NEEDS_RESPONSE, true⟩
  | _ => ⟨.RISK, .NONE, true⟩

/-- The `errorReasons` list built by `validateOrder` (`shopifyService.ts`
lines 509-514). -/
def validateReasons (dateOk : String → Bool) (order : Order) : List String :=
  (if order.id = "" ∨ ¬ hasNumbers order.id then ["Invalid Order #"] else []) ++
  (if order.date = "" ∨ ¬ dateOk order.date then ["Invalid Date"] else []) ++
  (if order.customer.email = "" ∨ ¬ isValidEmail order.customer.email
   then ["Invalid Email"] else []) ++
  (if order.tags = [] then ["Missing Tags"] else [])

/-- The recovery classification chosen at `shopifyService.ts` lines 536-552:
restore from a usable `original_category`, else fall back to tag detection,
else default to the RISK bucket. -/
def recoveryClassification (order : Order) : Classification :=
  match order.original_category with
  | some c =>
      if c ≠ .AUTO ∧ c ≠ .INVALID then restoreClassification c
      else (determineCategoryFromTags order.tags).getD ⟨.RISK, .NONE, true⟩
  | none => (determineCategoryFromTags order.tags).getD ⟨.RISK, .NONE, true⟩

/-- `validateOrder` (`shopifyService.ts` lines 508-564): re-runs the four
structural checks; failure quarantines the order (remembering the previous
category in `original_category` unless the order was already INVALID);
success on a previously-INVALID order triggers recovery; otherwise the order
is returned unchanged.  `dateOk` is the `Date.parse` oracle. -/
def validateOrder (dateOk : String → Bool) (order : Order) : Order :=
  let errorReasons := validateReasons dateOk order
  let isInvalid := errorReasons ≠ []
  if isInvalid then
    let prevCategory :=
      if order.import_category ≠ some .INVALID then order.import_category
      else order.original_category
    { order with
        import_category := some .INVALID
        original_category := prevCategory
        import_error := some (joinSep ", " errorReasons)
        isHighRisk := false
        disputeStatus := .NONE }
  else if order.import_category = some .INVALID then
    let classification := recoveryClassification order
    { order with
        import_category := some classification.category
        import_error := none
        disputeStatus := classification.status
        isHighRisk := classification.isHighRisk }
  else order

/-- `forceApproveOrder` (`shopifyService.ts` lines 598-615): manual approval
refuses (throws, modelled as `Except.error`) when tag-based detection yields
nothing. -/
def forceApproveOrder (order : Order) : Except String Order :=
  match determineCategoryFromTags order.tags with
  | none =>
      .error "Cannot determine order type. Please EDIT the tags to include \x27won\x27, \x27lost\x27, \x27submitted\x27, or \x27chargeback\x27 before marking as valid."
  | some classification =>
      .ok { order with
              import_category := some classification.category
              disputeStatus := classification.status
              isHighRisk := classification.isHighRisk
              import_error := none }

/-! ## `src/services/storageService.ts` -/

/-- `statusRank`: rank lookup in the `Record<string, number>`; `none` models
a missing key (JS `undefined`). -/
def statusRank : String → Option Nat
  | "none" => some 0
  | "open" => some 1
  | "submitted" => some 2
  | "won" => some 3
  | "lost" => some 3
  | "protected" => some 2
  | _ => none

/-- `mapDisputeStatus`: compact string stored in the DB. -/
def mapDisputeStatus : DisputeStatus → String
  | .NEEDS_RESPONSE => "open"
  | .UNDER_REVIEW => "submitted"
  | .WON => "won"
  | .LOST => "lost"
  | .NONE => "none"

/-- `inferImportSource`. -/
def inferImportSource (order : Order) : String :=
  match order.disputeStatus with
  | .NEEDS_RESPONSE => "dispute_open"
  | .UNDER_REVIEW => "dispute_submitted"
  | .WON => "dispute_won"
  | .LOST => "dispute_lost"
  | .NONE => if order.isHighRisk then "fraud" else "orders"

/-- JS `a >= b` on the results of two `statusRank` lookups: comparisons with
`undefined` are `false`. -/
def rankGE : Option Nat → Option Nat → Bool
  | some x, some y => y ≤ x
  | _, _ => false

/-- `statusRank[newStatus] >= statusRank[prevStatus] ? newStatus : prevStatus`. -/
def mergeStatus (prevStatus newStatus : String) : String :=
  if rankGE (statusRank newStatus) (statusRank prevStatus) then newStatus
  else prevStatus

/-- One persisted row of the `orders` table, for a fixed `user_id`
(`updated_at`, a wall-clock timestamp, and `latest_dispute_amount`, read from
a field the `Order` type does not have and hence always `null`, are outside
the model). -/
structure StoredRow where
  latest_dispute_status : String
  latest_risk_label : Option String
  latest_dispute_currency : Option String
  latest_dispute_deadline : Option String
  sources : List String
  data : Order
  deriving DecidableEq, Repr

/-- All rows for one user, keyed by order id. -/
def StoreState : Type := String → Option StoredRow

def emptyStore : StoreState := fun _ => none

/-- The `sources` JSON object accumulation `{ ...prevSources, [src]: true }`:
a key set to `true` stays in place, a new key is appended. -/
def addSource (sources : List String) (src : String) : List String :=
  if sources.contains src then sources else sources ++ [src]

/-- The per-order merge of `saveOrdersToDb` (`storageService.ts`
lines 107-138): escalate the dispute status by rank (ties go to the incoming
status), keep the risk label sticky, accumulate the source tag, and replace
the embedded snapshot wholesale. -/
def mergeRow (existing : Option StoredRow) (order : Order) : StoredRow :=
  let prevStatusRaw := (existing.map (fun r => r.latest_dispute_status)).getD ""
  let prevStatus := if prevStatusRaw = "" then "none" else prevStatusRaw
  let newStatus := mapDisputeStatus order.disputeStatus
  let latestStatus := mergeStatus prevStatus newStatus
  let prevRiskRaw := (existing.map (fun r => r.latest_risk_label)).getD none
  let prevRisk := if prevRiskRaw = some "" then none else prevRiskRaw
  let newRisk : Option String := if order.isHighRisk then some "high" else none
  let latestRisk := if newRisk.isSome then newRisk else prevRisk
  let prevSources := (existing.map (fun r => r.sources)).getD []
  { latest_dispute_status := latestStatus
    latest_risk_label := latestRisk
    latest_dispute_currency := order.currency
    latest_dispute_deadline := order.disputeDeadline
    sources := addSource prevSources (inferImportSource order)
    data := order }

/-- The array of merged rows built by step 2 of `saveOrdersToDb`: every row is
computed against the state read in step 1 (not against the other rows of the
same batch). -/
def upsertRows (st : StoreState) (orders : List Order) :
    List (String × StoredRow) :=
  orders.map (fun o => (o.id, mergeRow (st o.id) o))

def updateStore (st : StoreState) (k : String) (v : StoredRow) : StoreState :=
  fun id => if id = k then some v else st id

/-- Step 3 of `saveOrdersToDb`: upsert the merged rows keyed on
`(user_id, id)`; a later row for the same id overwrites an earlier one. -/
def applyUpserts (st : StoreState) (rows : List (String × StoredRow)) :
    StoreState :=
  rows.foldl (fun s p => updateStore s p.1 p.2) st

/-- The pure read-merge-upsert core of `saveOrdersToDb` (`storageService.ts`
lines 64-151), for one authenticated user; the surrounding auth, logging and
Supabase I/O are outside the model. -/
def saveOrdersToDb (st : StoreState) (orders : List Order) : StoreState :=
  applyUpserts st (upsertRows st orders)


/-! ## Generic infrastructure for the proofs -/

instance {ε α : Type} [DecidableEq ε] [DecidableEq α] : DecidableEq (Except ε α) := fun x y =>
  match x, y with
  | .ok a, .ok b =>
      if h : a = b then isTrue (by rw [h]) else isFalse (fun he => h (Except.ok.inj he))
  | .error a, .error b =>
      if h : a = b then isTrue (by rw [h]) else isFalse (fun he => h (Except.error.inj he))
  | .ok _, .error _ => isFalse (fun he => Except.noConfusion he)
  | .error _, .ok _ => isFalse (fun he => Except.noConfusion he)

/-! ## Pointwise characterisation of the merge step -/

theorem applyUpserts_apply (rows : List (String × StoredRow)) :
    ∀ (st : StoreState) (id : String),
      applyUpserts st rows id =
        rows.foldl (fun acc p => if p.1 = id then some p.2 else acc) (st id) := by
  induction rows with
  | nil => intro st id; rfl
  | cons r rows ih =>
      intro st id
      show applyUpserts (updateStore st r.1 r.2) rows id = _
      rw [ih]
      simp only [List.foldl_cons]
      congr 1
      show (if id = r.1 then some r.2 else st id) = if r.1 = id then some r.2 else st id
      by_cases h : id = r.1
      · rw [if_pos h, if_pos h.symm]
      · rw [if_neg h, if_neg (fun hh => h hh.symm)]

theorem foldl_hit_congr (st : StoreState) (id : String) (orders : List Order) :
    ∀ acc : Option StoredRow,
      orders.foldl (fun acc o => if o.id = id then some (mergeRow (st o.id) o) else acc) acc =
        orders.foldl (fun acc o => if o.id = id then some (mergeRow (st id) o) else acc) acc := by
  induction orders with
  | nil => intro acc; rfl
  | cons o os ih =>
      intro acc
      simp only [List.foldl_cons]
      by_cases h : o.id = id
      · rw [if_pos h, if_pos h, h, ih]
      · rw [if_neg h, if_neg h, ih]

/-- What one call of the merge step does at a single id: fold the batch from
the left, each order with that id replacing the accumulator by its merge
against the state *read before the batch*. -/
theorem saveOrdersToDb_apply (st : StoreState) (orders : List Order) (id : String) :
    saveOrdersToDb st orders id =
      orders.foldl (fun acc o => if o.id = id then some (mergeRow (st id) o) else acc)
        (st id) := by
  show applyUpserts st (upsertRows st orders) id = _
  rw [applyUpserts_apply, upsertRows, List.foldl_map]
  exact foldl_hit_congr st id orders (st id)

theorem foldl_hit_of_no_hit {id : String} {orders : List Order}
    (f : Order → StoredRow) (h : ∀ o ∈ orders, o.id ≠ id) :
    ∀ acc : Option StoredRow,
      orders.foldl (fun acc o => if o.id = id then some (f o) else acc) acc = acc := by
  induction orders with
  | nil => intro acc; rfl
  | cons o os ih =>
      intro acc
      simp only [List.foldl_cons]
      rw [if_neg (h o (List.mem_cons_self o os))]
      exact ih (fun o ho => h o (List.mem_cons_of_mem _ ho)) acc

theorem foldl_hit_cases (id : String) (orders : List Order) (f : Order → StoredRow) :
    ∀ acc : Option StoredRow,
      orders.foldl (fun acc o => if o.id = id then some (f o) else acc) acc = acc ∨
        ∃ o ∈ orders,
          orders.foldl (fun acc o => if o.id = id then some (f o) else acc) acc = some (f o) := by
  induction orders with
  | nil => intro acc; exact Or.inl rfl
  | cons o os ih =>
      intro acc
      simp only [List.foldl_cons]
      by_cases h : o.id = id
      · rw [if_pos h]
        rcases ih (some (f o)) with h1 | ⟨o2, ho2, h2⟩
        · exact Or.inr ⟨o, List.mem_cons_self o os, h1⟩
        · exact Or.inr ⟨o2, List.mem_cons_of_mem _ ho2, h2⟩
      · rw [if_neg h]
        rcases ih acc with h1 | ⟨o2, ho2, h2⟩
        · exact Or.inl h1
        · exact Or.inr ⟨o2, List.mem_cons_of_mem _ ho2, h2⟩

/-! ## Rank lemmas for the merged dispute status -/

theorem statusRank_mapDisputeStatus (d : DisputeStatus) :
    ∃ n, statusRank (mapDisputeStatus d) = some n := by
  cases d <;> exact ⟨_, rfl⟩

theorem mergeStatus_rank_le {prev : String} {r : Nat}
    (hp : statusRank prev = some r) (d : DisputeStatus) :
    ∃ n, statusRank (mergeStatus prev (mapDisputeStatus d)) = some n ∧ r ≤ n := by
  obtain ⟨m, hm⟩ := statusRank_mapDisputeStatus d
  unfold mergeStatus
  by_cases h : rankGE (statusRank (mapDisputeStatus d)) (statusRank prev) = true
  · rw [if_pos h]
    refine ⟨m, hm, ?_⟩
    rw [hm, hp] at h
    simpa [rankGE] using h
  · rw [if_neg h]
    exact ⟨r, hp, le_refl r⟩


theorem mergeStatus_terminal {prev : String}
    (hp : prev = "won" ∨ prev = "lost") (d : DisputeStatus) :
    mergeStatus prev (mapDisputeStatus d) = "won" ∨
      mergeStatus prev (mapDisputeStatus d) = "lost" := by
  rcases hp with hp | hp <;> subst hp <;> cases d <;> decide

theorem mergeRow_status (row : StoredRow) (o : Order) :
    (mergeRow (some row) o).latest_dispute_status =
      mergeStatus
        (if row.latest_dispute_status = "" then "none" else row.latest_dispute_status)
        (mapDisputeStatus o.disputeStatus) := rfl

/-! ## Concrete sample data used by counterexamples and witnesses -/

def baseCustomer : Customer :=
  { id := "c@d.com", name := "Cust", email := "c@d.com",
    location := "City, US", ordersCount := 1 }

def baseOrder : Order :=
  { id := "1", date := "2024-01-05", customer := baseCustomer,
    channel := "CSV Import", total := 10, paymentStatus := .PAID,
    fulfillmentStatus := .FULFILLED, itemsCount := 1,
    deliveryStatus := .DELIVERED, deliveryMethod := "Standard",
    tags := ["won"], isHighRisk := false, disputeStatus := .WON,
    disputeDeadline := none, created_at := some "2024-01-05",
    currency := some "USD", risk_category := none,
    import_category := some .DISPUTE_WON, original_category := none,
    import_error := none, additional_data := [] }

/-- An import of order id 1 carrying a WON dispute outcome. -/
def orderWon : Order := baseOrder

/-- A later import of the same order id 1 carrying a LOST dispute outcome. -/
def orderLost : Order :=
  { baseOrder with tags := ["lost"], disputeStatus := .LOST,
                   import_category := some .DISPUTE_LOST }

/-- An unrelated order with a different id. -/
def orderOther : Order :=
  { baseOrder with id := "2", tags := ["lost"], disputeStatus := .LOST,
                   import_category := some .DISPUTE_LOST }

/-! ## Claim C1 -/

/-- C1, counterexample: a persisted record whose `latest_dispute_status` is
the terminal `won` is replaced by `lost` by the very next merge, because
the merge keeps the incoming status whenever its rank is at least the
stored rank and WON and LOST share rank 3.  This refutes the part of the
claim asserting that a stored terminal status never changes again. -/
theorem C1_cex :
    ((saveOrdersToDb emptyStore [orderWon]) "1").map
        StoredRow.latest_dispute_status = some "won" ∧
    ((saveOrdersToDb (saveOrdersToDb emptyStore [orderWon]) [orderLost]) "1").map
        StoredRow.latest_dispute_status = some "lost" := by decide

/-- C1, amended: across any merge performed by `saveOrdersToDb`, the rank of
`latest_dispute_status` never decreases, and a stored terminal status
(`won` or `lost`) is only ever replaced by a terminal status — but a
later merge carrying the *other* terminal status does replace it, since an
incoming status of equal rank wins. -/
theorem C1_thm (st : StoreState) (orders : List Order) (id : String)
    (row row2 : StoredRow) (hrow : st id = some row)
    (hrow2 : saveOrdersToDb st orders id = some row2) :
    (∀ r, statusRank row.latest_dispute_status = some r →
        ∃ n, statusRank row2.latest_dispute_status = some n ∧ r ≤ n) ∧
    ((row.latest_dispute_status = "won" ∨ row.latest_dispute_status = "lost") →
        (row2.latest_dispute_status = "won" ∨ row2.latest_dispute_status = "lost")) := by
  rw [saveOrdersToDb_apply] at hrow2
  rcases foldl_hit_cases id orders
      (fun o => mergeRow (st id) o) (st id) with hcase | ⟨o, _, hcase⟩
  · rw [hcase, hrow] at hrow2
    obtain rfl : row = row2 := Option.some.inj hrow2
    constructor
    · exact fun r hr => ⟨r, hr, le_refl r⟩
    · exact fun h => h
  · rw [hcase] at hrow2
    obtain rfl : mergeRow (st id) o = row2 := Option.some.inj hrow2
    rw [hrow]
    constructor
    · intro r hr
      have hne : row.latest_dispute_status ≠ "" := by
        intro he
        rw [he] at hr
        exact Option.noConfusion hr
      rw [mergeRow_status, if_neg hne]
      exact mergeStatus_rank_le hr o.disputeStatus
    · intro hterm
      have hne : row.latest_dispute_status ≠ "" := by
        rcases hterm with h | h <;> rw [h] <;> decide
      rw [mergeRow_status, if_neg hne]
      exact mergeStatus_terminal hterm o.disputeStatus

/-- C1, witness: the amended theorem applied to the concrete stored-WON
record and an incoming LOST import. -/
theorem C1_wit :
    (mergeRow (some (mergeRow none orderWon)) orderLost).latest_dispute_status = "won" ∨
    (mergeRow (some (mergeRow none orderWon)) orderLost).latest_dispute_status = "lost" :=
  (C1_thm (saveOrdersToDb emptyStore [orderWon]) [orderLost] "1"
      (mergeRow none orderWon)
      (mergeRow (some (mergeRow none orderWon)) orderLost)
      (by decide) (by decide)).2 (Or.inl (by decide))

/-! ## Claim C2 -/

/-- Claim C2, counterexample: the batch `[orderWon, orderLost]` (two imports
of the same order id, one WON and one LOST) split into the two singleton
sub-batches ends at status `lost` when `[orderWon]` is merged first but at
`won` when `[orderLost]` is merged first, so the two application orders give
different final states and cannot both equal the single-batch merge as the
claim asserts. -/
theorem C2_cex :
    ((saveOrdersToDb (saveOrdersToDb emptyStore [orderWon]) [orderLost]) "1").map
        StoredRow.latest_dispute_status = some "lost" ∧
    ((saveOrdersToDb (saveOrdersToDb emptyStore [orderLost]) [orderWon]) "1").map
        StoredRow.latest_dispute_status = some "won" := by decide

/-- C2, amended: splitting a batch into two sub-batches and merging them in
either order agrees with merging the whole batch once, provided no order id
occurs in both sub-batches (in particular whenever each id occurs at most
once in the batch); when one id is split across the sub-batches the two
orders can disagree at equal dispute rank (WON vs LOST). -/
theorem C2_thm (st : StoreState) (b1 b2 : List Order)
    (hdisj : ∀ a ∈ b1.map Order.id, a ∉ b2.map Order.id) :
    saveOrdersToDb (saveOrdersToDb st b1) b2 = saveOrdersToDb st (b1 ++ b2) ∧
    saveOrdersToDb (saveOrdersToDb st b2) b1 = saveOrdersToDb st (b1 ++ b2) := by
  constructor
  · funext id
    rw [saveOrdersToDb_apply (saveOrdersToDb st b1) b2 id,
        saveOrdersToDb_apply st (b1 ++ b2) id, List.foldl_append,
        saveOrdersToDb_apply st b1 id]
    by_cases hb2 : ∀ o ∈ b2, o.id ≠ id
    · rw [foldl_hit_of_no_hit _ hb2, foldl_hit_of_no_hit _ hb2]
    · push_neg at hb2
      obtain ⟨o2, ho2, hid2⟩ := hb2
      have hb1 : ∀ o ∈ b1, o.id ≠ id := by
        intro o ho heq
        exact hdisj o.id (List.mem_map_of_mem _ ho)
          (by rw [heq, ← hid2]; exact List.mem_map_of_mem _ ho2)
      rw [foldl_hit_of_no_hit _ hb1]
  · funext id
    rw [saveOrdersToDb_apply (saveOrdersToDb st b2) b1 id,
        saveOrdersToDb_apply st (b1 ++ b2) id, List.foldl_append,
        saveOrdersToDb_apply st b2 id]
    by_cases hb1 : ∀ o ∈ b1, o.id ≠ id
    · rw [foldl_hit_of_no_hit _ hb1,
          foldl_hit_of_no_hit (fun o => mergeRow (st id) o) hb1 (st id)]
    · push_neg at hb1
      obtain ⟨o1, ho1, hid1⟩ := hb1
      have hb2 : ∀ o ∈ b2, o.id ≠ id := by
        intro o ho heq
        exact hdisj o1.id (List.mem_map_of_mem _ ho1)
          (by rw [hid1, ← heq]; exact List.mem_map_of_mem _ ho)
      rw [foldl_hit_of_no_hit _ hb2,
          foldl_hit_of_no_hit (fun o => mergeRow (st id) o) hb2]

/-- C2, witness: the amended theorem applied to two singleton sub-batches
with distinct order ids. -/
theorem C2_wit :
    saveOrdersToDb (saveOrdersToDb emptyStore [orderWon]) [orderOther] =
      saveOrdersToDb emptyStore ([orderWon] ++ [orderOther]) :=
  (C2_thm emptyStore [orderWon] [orderOther] (by decide)).1


/-! ## Helper lemmas about the error-reason lists -/

theorem append_ne_empty_left {a : String} (b : String) (ha : a ≠ "") :
    a ++ b ≠ "" := by
  intro h
  apply ha
  have hd : a.data ++ b.data = [] := by
    have h2 := congrArg String.data h
    simpa [String.data_append] using h2
  exact String.ext (List.append_eq_nil.mp hd).1

theorem joinSep_ne_empty {l : List String} (h1 : l ≠ [])
    (h2 : ∀ x ∈ l, x ≠ "") : joinSep ", " l ≠ "" := by
  match l with
  | [] => exact absurd rfl h1
  | [a] => exact h2 a (List.mem_singleton.mpr rfl)
  | a :: b :: rest =>
      show a ++ ", " ++ joinSep ", " (b :: rest) ≠ ""
      exact append_ne_empty_left _
        (append_ne_empty_left _ (h2 a (List.mem_cons_self a _)))

theorem mem_if_singleton {c : Prop} [Decidable c] {s x : String}
    (hx : x ∈ (if c then [s] else [])) : x = s := by
  by_cases h : c
  · rw [if_pos h] at hx
    exact List.mem_singleton.mp hx
  · rw [if_neg h] at hx
    exact absurd hx (List.not_mem_nil x)

/-- The only strings that ever enter the `errorReasons` list of a row. -/
theorem rowErrorReasons_mem (env : JsEnv) (category : OpCategory) (idx : Idx)
    (row : List String) (x : String)
    (hx : x ∈ rowErrorReasons env category idx row) :
    x = "Invalid Order #" ∨ x = "Invalid Date" ∨ x = "Invalid Email" ∨
      x = "Missing Tags" := by
  unfold rowErrorReasons at hx
  rcases List.mem_append.mp hx with hx | hx
  rcases List.mem_append.mp hx with hx | hx
  rcases List.mem_append.mp hx with hx | hx
  · exact Or.inl (mem_if_singleton hx)
  · exact Or.inr (Or.inl (mem_if_singleton hx))
  · exact Or.inr (Or.inr (Or.inl (mem_if_singleton hx)))
  · exact Or.inr (Or.inr (Or.inr (mem_if_singleton hx)))

theorem rowErrorReasons_ne_empty_elems (env : JsEnv) (category : OpCategory)
    (idx : Idx) (row : List String) :
    ∀ x ∈ rowErrorReasons env category idx row, x ≠ "" := by
  intro x hx
  rcases rowErrorReasons_mem env category idx row x hx with h | h | h | h <;>
    subst h <;> decide

/-- Every entry of the reasons list of `validateOrder` is nonempty. -/
theorem validateReasons_elems_ne_empty (dateOk : String → Bool) (order : Order)
    (x : String) (hx : x ∈ validateReasons dateOk order) : x ≠ "" := by
  unfold validateReasons at hx
  rcases List.mem_append.mp hx with hx | hx
  rcases List.mem_append.mp hx with hx | hx
  rcases List.mem_append.mp hx with hx | hx
  all_goals rw [mem_if_singleton hx]
  all_goals decide

/-! ## Classification results never carry `INVALID` -/

theorem restoreClassification_ne_INVALID (c : ImportCategory) :
    (restoreClassification c).category ≠ .INVALID := by
  cases c <;> decide

theorem determineCategoryFromTags_ne_INVALID (tags : List String)
    (cl : Classification) (h : determineCategoryFromTags tags = some cl) :
    cl.category ≠ .INVALID := by
  simp only [determineCategoryFromTags] at h
  split_ifs at h <;> simp only [Option.some.injEq] at h
  all_goals subst h
  all_goals decide

theorem classifyCSV_ne_INVALID (category : OpCategory) (tags : List String)
    (nativeRisk : Bool) :
    (classifyCSV category tags nativeRisk).importCat ≠ .INVALID := by
  cases category <;> (simp only [classifyCSV]; try split_ifs) <;> simp

/-! ## Association-list lemmas -/

theorem alookup_append_right {α : Type} (m : List (String × α)) (k : String)
    (v : α) (h : alookup m k = none) : alookup (m ++ [(k, v)]) k = some v := by
  induction m with
  | nil => simp [alookup]
  | cons p rest ih =>
      rw [List.cons_append]
      simp only [alookup] at h ⊢
      by_cases hp : p.1 = k
      · rw [if_pos hp] at h
        exact Option.noConfusion h
      · rw [if_neg hp] at h ⊢
        exact ih h

theorem alookup_aupdate {α : Type} (m : List (String × α)) (k : String)
    (f : α → α) : alookup (aupdate m k f) k = (alookup m k).map f := by
  induction m with
  | nil => rfl
  | cons p rest ih =>
      unfold aupdate at ih ⊢
      simp only [List.map_cons]
      by_cases hp : p.1 = k
      · simp [alookup, hp]
      · simp only [alookup, if_neg hp]
        exact ih


/-! ## Invariants of the `orderMap` fold in `parseShopifyCSV` -/

theorem processRow_pred (P : RawOrder → Prop)
    (hupd : ∀ o n, P o → P { o with itemsCount := n })
    (env : JsEnv) (cat : OpCategory) (hdrs : List String) (idx : Idx)
    (hnew : ∀ (i : Nat) (row : List String), P (mkRawOrder env cat hdrs idx i row))
    (m : List (String × RawOrder)) (i : Nat) (line : String)
    (hm : ∀ p ∈ m, P p.2) :
    ∀ p ∈ processRow env cat hdrs idx m i line, P p.2 := by
  intro p hp
  simp only [processRow, aupdate] at hp
  by_cases hline : jsTrim line = ""
  · rw [if_pos hline] at hp
    exact hm p hp
  · rw [if_neg hline] at hp
    rcases List.mem_map.mp hp with ⟨q, hq, hpq⟩
    have hq2 : P q.2 := by
      split at hq <;> split at hq <;>
      first
        | exact hm q hq
        | (rcases List.mem_append.mp hq with h | h
           · exact hm q h
           · rw [List.mem_singleton.mp h]
             exact hnew i _)
    rw [← hpq]
    split <;> split <;> exact hupd _ _ hq2

theorem foldl_processRow_pred (P : RawOrder → Prop)
    (hupd : ∀ o n, P o → P { o with itemsCount := n })
    (env : JsEnv) (cat : OpCategory) (hdrs : List String) (idx : Idx)
    (hnew : ∀ (i : Nat) (row : List String), P (mkRawOrder env cat hdrs idx i row)) :
    ∀ (ls : List (Nat × String)) (m : List (String × RawOrder)),
      (∀ p ∈ m, P p.2) →
      ∀ p ∈ ls.foldl (fun m q => processRow env cat hdrs idx m q.1 q.2) m, P p.2 := by
  intro ls
  induction ls with
  | nil =>
      intro m hm p hp
      rw [List.foldl_nil] at hp
      exact hm p hp
  | cons q ls ih =>
      intro m hm p hp
      rw [List.foldl_cons] at hp
      exact ih _ (processRow_pred P hupd env cat hdrs idx hnew m q.1 q.2 hm) p hp

/-- Every order returned by a successful `parseShopifyCSV` run is the
finalisation of a raw order satisfying any predicate preserved by the row
loop. -/
theorem parse_ok_entry (P : RawOrder → Prop)
    (hupd : ∀ o n, P o → P { o with itemsCount := n })
    (env : JsEnv) (csv : String) (cat : OpCategory)
    (hnew : ∀ (i : Nat) (row : List String),
        P (mkRawOrder env cat (csvRawHeaders csv) (csvIdx csv) i row))
    (orders : List Order)
    (h : parseShopifyCSV env csv cat = .ok orders) :
    ∀ o ∈ orders, ∃ raw, P raw ∧ o = finalizeOrder env cat raw := by
  simp only [parseShopifyCSV] at h
  by_cases hlen : (csvLines csv).length < 2
  · rw [if_pos hlen] at h
    exact absurd h (by simp)
  · rw [if_neg hlen] at h
    cases hn : (csvIdx csv).name with
    | none =>
        rw [hn] at h
        exact absurd h (by simp)
    | some k =>
        rw [hn] at h
        have horders := (Except.ok.inj h).symm
        subst horders
        intro o ho
        rcases List.mem_map.mp ho with ⟨p, hpm, rfl⟩
        exact ⟨p.2,
          foldl_processRow_pred P hupd env cat (csvRawHeaders csv) (csvIdx csv) hnew
            ((csvLines csv).enum.drop 1) [] (by intro q hq; exact absurd hq (List.not_mem_nil q))
            p hpm, rfl⟩

/-- The recovery classification never lands in the quarantine category. -/
theorem recoveryClassification_ne_INVALID (o : Order) :
    (recoveryClassification o).category ≠ .INVALID := by
  have hget : ((determineCategoryFromTags o.tags).getD ⟨.RISK, .NONE, true⟩).category ≠
      ImportCategory.INVALID := by
    cases hd : determineCategoryFromTags o.tags with
    | none => simp [hd, Option.getD]
    | some cl => simpa [hd] using determineCategoryFromTags_ne_INVALID o.tags cl hd
  unfold recoveryClassification
  cases ho : o.original_category with
  | none => exact hget
  | some c =>
      dsimp only
      by_cases hc : c ≠ ImportCategory.AUTO ∧ c ≠ ImportCategory.INVALID
      · rw [if_pos hc]
        exact restoreClassification_ne_INVALID c
      · rw [if_neg hc]
        exact hget


/-! ## Shared concrete environment for witnesses -/

/-- A concrete JS environment: every date string parses, formatting is the
identity. -/
def envC : JsEnv :=
  { dateOk := fun _ => true
    fmtDate := fun s => s
    nowISO := "NOW"
    parseFloatD := fun _ => 0
    parseQty := fun _ => none }

theorem mkRawOrder_invalid_error (env : JsEnv) (cat : OpCategory)
    (hdrs : List String) (idx : Idx) (i : Nat) (row : List String)
    (hI : (mkRawOrder env cat hdrs idx i row).isInvalid = true) :
    (mkRawOrder env cat hdrs idx i row).importError ≠ "" := by
  have hi : (mkRawOrder env cat hdrs idx i row).isInvalid =
      decide (rowErrorReasons env cat idx row ≠ []) := rfl
  have he : (mkRawOrder env cat hdrs idx i row).importError =
      joinSep ", " (rowErrorReasons env cat idx row) := rfl
  rw [he]
  rw [hi] at hI
  exact joinSep_ne_empty (of_decide_eq_true hI)
    (rowErrorReasons_ne_empty_elems env cat idx row)

/-! ## Claim C10 -/

/-- C10: an order that passes all four validation checks and is not currently
quarantined is returned by `validateOrder` completely unchanged — every field
identical to the input. -/
theorem C10_thm (dateOk : String → Bool) (o : Order)
    (hid : ¬ (o.id = "" ∨ ¬ hasNumbers o.id))
    (hdate : ¬ (o.date = "" ∨ ¬ dateOk o.date))
    (hemail : ¬ (o.customer.email = "" ∨ ¬ isValidEmail o.customer.email))
    (htags : o.tags ≠ [])
    (hcat : o.import_category ≠ some .INVALID) :
    validateOrder dateOk o = o := by
  have hr : validateReasons dateOk o = [] := by
    unfold validateReasons
    rw [if_neg hid, if_neg hdate, if_neg hemail, if_neg htags]
    rfl
  simp only [validateOrder, hr]
  rw [if_neg (by simp), if_neg hcat]

/-- C10, witness. -/
theorem C10_wit : validateOrder (fun _ => true) baseOrder = baseOrder :=
  C10_thm (fun _ => true) baseOrder (by decide) (by decide) (by decide)
    (by decide) (by decide)

/-! ## Claim C5 -/

/-- C5: every order whose stored category is INVALID — whether produced by
`parseShopifyCSV` or by `validateOrder` — carries a nonempty validation-error
string, has `isHighRisk = false` and `disputeStatus = NONE`. -/
theorem C5_thm :
    (∀ (env : JsEnv) (csv : String) (cat : OpCategory) (orders : List Order),
        parseShopifyCSV env csv cat = .ok orders →
        ∀ o ∈ orders, o.import_category = some .INVALID →
          (∃ e, o.import_error = some e ∧ e ≠ "") ∧
            o.isHighRisk = false ∧ o.disputeStatus = .NONE) ∧
    (∀ (dateOk : String → Bool) (o : Order),
        (validateOrder dateOk o).import_category = some .INVALID →
          (∃ e, (validateOrder dateOk o).import_error = some e ∧ e ≠ "") ∧
            (validateOrder dateOk o).isHighRisk = false ∧
            (validateOrder dateOk o).disputeStatus = .NONE) := by
  constructor
  · intro env csv cat orders h o ho hinv
    obtain ⟨raw, hP, rfl⟩ :=
      parse_ok_entry (fun r => r.isInvalid = true → r.importError ≠ "")
        (fun o n hP => hP) env csv cat
        (fun i row =>
          mkRawOrder_invalid_error env cat (csvRawHeaders csv) (csvIdx csv) i row)
        orders h o ho
    by_cases hraw : raw.isInvalid = true
    · refine ⟨⟨raw.importError, ?_, hP hraw⟩, ?_, ?_⟩ <;>
        simp [finalizeOrder, hraw]
    · exfalso
      have hcat2 : (finalizeOrder env cat raw).import_category =
          some (classifyCSV cat raw.tags raw.nativeRisk).importCat := by
        simp [finalizeOrder, hraw]
      rw [hcat2] at hinv
      exact classifyCSV_ne_INVALID cat raw.tags raw.nativeRisk (Option.some.inj hinv)
  · intro dateOk o hinv
    by_cases hc : validateReasons dateOk o ≠ []
    · refine ⟨⟨joinSep ", " (validateReasons dateOk o), ?_,
          joinSep_ne_empty hc (validateReasons_elems_ne_empty dateOk o)⟩, ?_, ?_⟩ <;>
        simp [validateOrder, hc]
    · by_cases hcat : o.import_category = some .INVALID
      · exfalso
        have hrec : (validateOrder dateOk o).import_category =
            some (recoveryClassification o).category := by
          simp [validateOrder, hc, hcat]
        rw [hrec] at hinv
        exact recoveryClassification_ne_INVALID o (Option.some.inj hinv)
      · exfalso
        have hpass : validateOrder dateOk o = o := by
          simp [validateOrder, hc, hcat]
        rw [hpass] at hinv
        exact hcat hinv

/-- The concrete CSV batch used by the C5 witness: one row with an empty
identity field and a malformed email. -/
def csvInvalidSample : String := "Name,Email\n,x"

def ordersInvalidSample : List Order :=
  match parseShopifyCSV envC csvInvalidSample .AUTO with
  | .ok os => os
  | .error _ => []

def ordInvalidSample : Order := ordersInvalidSample.headD baseOrder

/-- C5, witness: the theorem applied to the quarantined order produced from
the concrete sample batch. -/
theorem C5_wit :
    (∃ e, ordInvalidSample.import_error = some e ∧ e ≠ "") ∧
      ordInvalidSample.isHighRisk = false ∧
      ordInvalidSample.disputeStatus = .NONE :=
  C5_thm.1 envC csvInvalidSample .AUTO ordersInvalidSample (by decide)
    ordInvalidSample (by decide) (by decide)

/-! ## Claim C6 -/

/-- C6: a quarantined order that passes all checks on a later validation run
recovers: the remembered concrete category is restored (with its dispute
status and risk flag), otherwise tag detection decides, and if that yields
nothing the order lands in the RISK bucket (`riskFlag = true`,
`disputeState = NONE`) instead of being dropped. -/
theorem C6_thm (dateOk : String → Bool) (o : Order)
    (hid : ¬ (o.id = "" ∨ ¬ hasNumbers o.id))
    (hdate : ¬ (o.date = "" ∨ ¬ dateOk o.date))
    (hemail : ¬ (o.customer.email = "" ∨ ¬ isValidEmail o.customer.email))
    (htags : o.tags ≠ [])
    (hinv : o.import_category = some .INVALID) :
    validateOrder dateOk o =
      { o with import_category := some (recoveryClassification o).category,
               import_error := none,
               disputeStatus := (recoveryClassification o).status,
               isHighRisk := (recoveryClassification o).isHighRisk } ∧
    (∀ c, o.original_category = some c → c ≠ .AUTO → c ≠ .INVALID →
        recoveryClassification o = restoreClassification c ∧
        (restoreClassification c).category = c) ∧
    ((o.original_category = none ∨ o.original_category = some .AUTO ∨
        o.original_category = some .INVALID) →
      recoveryClassification o =
        (determineCategoryFromTags o.tags).getD ⟨.RISK, .NONE, true⟩) ∧
    (determineCategoryFromTags o.tags = none →
      (o.original_category = none ∨ o.original_category = some .AUTO ∨
        o.original_category = some .INVALID) →
      recoveryClassification o = ⟨.RISK, .NONE, true⟩) := by
  have hr : validateReasons dateOk o = [] := by
    unfold validateReasons
    rw [if_neg hid, if_neg hdate, if_neg hemail, if_neg htags]
    rfl
  have hrec_fb : (o.original_category = none ∨ o.original_category = some .AUTO ∨
      o.original_category = some .INVALID) →
      recoveryClassification o =
        (determineCategoryFromTags o.tags).getD ⟨.RISK, .NONE, true⟩ := by
    intro h
    unfold recoveryClassification
    rcases h with h | h | h <;> rw [h] <;> simp
  refine ⟨?_, ?_, hrec_fb, ?_⟩
  · simp only [validateOrder, hr]
    rw [if_neg (by simp), if_pos hinv]
  · intro c hc hA hI
    constructor
    · unfold recoveryClassification
      rw [hc]
      dsimp only
      rw [if_pos ⟨hA, hI⟩]
    · cases c
      case AUTO => exact absurd rfl hA
      case INVALID => exact absurd rfl hI
      all_goals rfl
  · intro hnone h
    rw [hrec_fb h, hnone]
    rfl

/-- A quarantined order remembering the DISPUTE_OPEN category, now passing
all checks. -/
def ordRecover : Order :=
  { baseOrder with import_category := some .INVALID,
                   original_category := some .DISPUTE_OPEN }

/-- C6, witness. -/
theorem C6_wit :
    validateOrder (fun _ => true) ordRecover =
      { ordRecover with
          import_category := some (recoveryClassification ordRecover).category,
          import_error := none,
          disputeStatus := (recoveryClassification ordRecover).status,
          isHighRisk := (recoveryClassification ordRecover).isHighRisk } :=
  (C6_thm (fun _ => true) ordRecover (by decide) (by decide) (by decide)
    (by decide) rfl).1

/-! ## Claim C7 -/

/-- C7: `forceApproveOrder` raises its descriptive error exactly when tag
detection yields nothing (e.g. tags `["misc"]`), and on a match (e.g. a tag
containing "won") returns the order with the matched category and its
corresponding dispute status and risk flag. -/
theorem C7_thm (o : Order) :
    ((∃ msg, forceApproveOrder o = .error msg) ↔
        determineCategoryFromTags o.tags = none) ∧
    (∀ cl, determineCategoryFromTags o.tags = some cl →
        forceApproveOrder o =
          .ok { o with import_category := some cl.category,
                       disputeStatus := cl.status,
                       isHighRisk := cl.isHighRisk,
                       import_error := none }) ∧
    (o.tags = ["misc"] → ∃ msg, forceApproveOrder o = .error msg) ∧
    (o.tags = ["won"] →
        forceApproveOrder o =
          .ok { o with import_category := some .DISPUTE_WON,
                       disputeStatus := .WON,
                       isHighRisk := false,
                       import_error := none }) := by
  refine ⟨⟨?_, ?_⟩, ?_, ?_, ?_⟩
  · rintro ⟨msg, hmsg⟩
    unfold forceApproveOrder at hmsg
    cases h : determineCategoryFromTags o.tags with
    | none => rfl
    | some cl =>
        rw [h] at hmsg
        exact Except.noConfusion hmsg
  · intro h
    unfold forceApproveOrder
    rw [h]
    exact ⟨_, rfl⟩
  · intro cl h
    unfold forceApproveOrder
    rw [h]
  · intro h
    have hd : determineCategoryFromTags o.tags = none := by
      rw [h]
      decide
    unfold forceApproveOrder
    rw [hd]
    exact ⟨_, rfl⟩
  · intro h
    have hd : determineCategoryFromTags o.tags =
        some ⟨.DISPUTE_WON, .WON, false⟩ := by
      rw [h]
      decide
    unfold forceApproveOrder
    rw [hd]

/-- C7, witness: manual approval of an order tagged "won" succeeds with the
DISPUTE_WON category. -/
theorem C7_wit :
    forceApproveOrder baseOrder =
      .ok { baseOrder with import_category := some .DISPUTE_WON,
                           disputeStatus := .WON, isHighRisk := false,
                           import_error := none } :=
  (C7_thm baseOrder).2.2.2 rfl


/-! ## Claim C4 -/

/-- C4, counterexample: a header-only CSV whose header row does contain the
Name column (at index 0) still throws "CSV file is empty or invalid.", so
"never throws when the header has a Name column" is false as stated. -/
theorem C4_cex :
    parseShopifyCSV envC "Name" .AUTO = .error "CSV file is empty or invalid." ∧
    getIndex (csvHeaders "Name") "Name" = some 0 := by decide

/-- C4, amended: `parseShopifyCSV` aborts only on an input with fewer than
two lines (empty or header-only) or on a missing Name column; for every
input with at least two lines whose header resolves a Name column it returns
a batch instead of throwing (per-row defects only quarantine the affected
order, cf. C5). -/
theorem C4_thm (env : JsEnv) (csvText : String) (category : OpCategory)
    (hlen : 2 ≤ (csvLines csvText).length)
    (hname : (csvIdx csvText).name ≠ none) :
    ∃ orders, parseShopifyCSV env csvText category = .ok orders := by
  simp only [parseShopifyCSV]
  rw [if_neg (by omega)]
  cases hn : (csvIdx csvText).name with
  | none => exact absurd hn hname
  | some k => exact ⟨_, rfl⟩

/-- C4, witness. -/
theorem C4_wit :
    ∃ orders, parseShopifyCSV envC "Name\n1" .AUTO = .ok orders :=
  C4_thm envC "Name\n1" .AUTO (by decide) (by decide)

/-! ## Claim C3 -/

/-- C3, counterexample: the data row `,x` has an empty Name field, yet
`parseShopifyCSV` does not skip it — it produces exactly one order, with the
synthetic id `BAD-ROW-1`, and quarantines it (`import_category = INVALID`).
This refutes "it contributes no order to the output and is not
quarantined". -/
theorem C3_cex :
    (parseShopifyCSV envC "Name,Email\n,x" .AUTO).map
        (fun os => os.map (fun o => (o.id, o.import_category))) =
      .ok [("BAD-ROW-1", some .INVALID)] := by decide

/-- C3, amended: a non-blank data row whose Name field is empty is *not*
skipped: the row loop inserts it under the synthetic key
`BAD-ROW-<line index>`, the stored raw order is marked invalid, and its
finalisation is a quarantined order (`import_category = INVALID`) carrying
that synthetic id.  (Only lines that are blank after trimming are skipped.) -/
theorem C3_thm (env : JsEnv) (category : OpCategory) (rawHeaders : List String)
    (idx : Idx) (m : List (String × RawOrder)) (i : Nat) (line : String)
    (hline : jsTrim line ≠ "")
    (hid : val (parseCSVLine (jsTrim line)) idx.name = "")
    (hfresh : alookup m ("BAD-ROW-" ++ toString i) = none) :
    ∃ raw, alookup (processRow env category rawHeaders idx m i line)
        ("BAD-ROW-" ++ toString i) = some raw ∧
      raw.isInvalid = true ∧
      (finalizeOrder env category raw).import_category = some .INVALID ∧
      (finalizeOrder env category raw).id = "BAD-ROW-" ++ toString i := by
  have hkey : (if val (parseCSVLine (jsTrim line)) idx.name = ""
      then "BAD-ROW-" ++ toString i
      else val (parseCSVLine (jsTrim line)) idx.name) = "BAD-ROW-" ++ toString i := by
    rw [hid]
    simp
  have hreasons : rowErrorReasons env category idx (parseCSVLine (jsTrim line)) ≠ [] := by
    simp only [rowErrorReasons]
    rw [if_pos (Or.inl hid)]
    simp
  have hinv : (mkRawOrder env category rawHeaders idx i
      (parseCSVLine (jsTrim line))).isInvalid = true := decide_eq_true hreasons
  have hmkid : (mkRawOrder env category rawHeaders idx i
      (parseCSVLine (jsTrim line))).id = "BAD-ROW-" ++ toString i := by
    show (if val (parseCSVLine (jsTrim line)) idx.name = ""
        then "BAD-ROW-" ++ toString i
        else val (parseCSVLine (jsTrim line)) idx.name) = _
    exact hkey
  have hfcat : ∀ raw : RawOrder, raw.isInvalid = true →
      (finalizeOrder env category raw).import_category = some .INVALID := by
    intro raw hraw
    simp [finalizeOrder, hraw]
  have hfid : ∀ raw : RawOrder, raw.isInvalid = true →
      (finalizeOrder env category raw).id = raw.id := by
    intro raw hraw
    simp [finalizeOrder, hraw]
  have hinv2 : ∀ n : Int,
      ({ mkRawOrder env category rawHeaders idx i (parseCSVLine (jsTrim line)) with
          itemsCount := n }).isInvalid = true := fun _ => hinv
  have hmkid2 : ∀ n : Int,
      ({ mkRawOrder env category rawHeaders idx i (parseCSVLine (jsTrim line)) with
          itemsCount := n }).id = "BAD-ROW-" ++ toString i := fun _ => hmkid
  simp only [processRow]
  rw [if_neg hline, hkey, hfresh]
  rw [if_neg (by simp : ¬ ((none : Option RawOrder).isSome = true))]
  rw [alookup_aupdate, alookup_append_right m _ _ hfresh]
  refine ⟨_, rfl, hinv2 _, hfcat _ (hinv2 _), (hfid _ (hinv2 _)).trans (hmkid2 _)⟩

/-- C3, witness: the amended theorem applied to the concrete row `,x` under
the header `Name,Email`. -/
theorem C3_wit :
    (alookup (processRow envC .AUTO ["Name", "Email"]
          (csvIdx "Name,Email\n,x") [] 1 ",x") ("BAD-ROW-" ++ toString 1)).map
        (fun raw => (finalizeOrder envC .AUTO raw).import_category) =
      some (some .INVALID) := by
  obtain ⟨raw, h1, _, h3, _⟩ :=
    C3_thm envC .AUTO ["Name", "Email"] (csvIdx "Name,Email\n,x") [] 1 ",x"
      (by decide) (by decide) rfl
  rw [h1]
  simp [h3]

/-! ## Claim C8 -/

theorem mkRawOrder_no_missing_tags (env : JsEnv) (category : OpCategory)
    (hdrs : List String) (idx : Idx) (i : Nat) (row : List String)
    (hcat : category ≠ .AUTO) :
    jsIncludes (mkRawOrder env category hdrs idx i row).importError
      "Missing Tags" = false := by
  have he : (mkRawOrder env category hdrs idx i row).importError =
      joinSep ", " (rowErrorReasons env category idx row) := rfl
  rw [he]
  simp only [rowErrorReasons]
  rw [if_neg (show ¬(category = OpCategory.AUTO ∧
      (val row idx.tags = "" ∨ (jsTrim (val row idx.tags)).length = 0)) from
    fun h => hcat h.1)]
  split_ifs <;> decide

/-- C8: with a non-AUTO operator category the missing-tags check is skipped
entirely — "Missing Tags" never enters the reason list of a row, and no order of
the returned batch carries it in its validation-error string — so an order
with no tags is not quarantined for missing tags when the operator chose an
explicit category. -/
theorem C8_thm :
    (∀ (env : JsEnv) (category : OpCategory) (idx : Idx) (row : List String),
        category ≠ .AUTO →
        "Missing Tags" ∉ rowErrorReasons env category idx row) ∧
    (∀ (env : JsEnv) (csv : String) (category : OpCategory) (orders : List Order),
        category ≠ .AUTO → parseShopifyCSV env csv category = .ok orders →
        ∀ o ∈ orders, ∀ e, o.import_error = some e →
          jsIncludes e "Missing Tags" = false) := by
  constructor
  · intro env category idx row hcat hmem
    simp only [rowErrorReasons] at hmem
    rw [if_neg (show ¬(category = OpCategory.AUTO ∧
        (val row idx.tags = "" ∨ (jsTrim (val row idx.tags)).length = 0)) from
      fun h => hcat h.1)] at hmem
    rcases List.mem_append.mp hmem with h | h
    rcases List.mem_append.mp h with h | h
    rcases List.mem_append.mp h with h | h
    · exact absurd (mem_if_singleton h) (by decide)
    · exact absurd (mem_if_singleton h) (by decide)
    · exact absurd (mem_if_singleton h) (by decide)
    · exact absurd h (List.not_mem_nil _)
  · intro env csv category orders hcat h o ho e he
    obtain ⟨raw, hP, rfl⟩ :=
      parse_ok_entry (fun r => jsIncludes r.importError "Missing Tags" = false)
        (fun o n hP => hP) env csv category
        (fun i row =>
          mkRawOrder_no_missing_tags env category (csvRawHeaders csv) (csvIdx csv)
            i row hcat)
        orders h o ho
    by_cases hraw : raw.isInvalid = true
    · have herr : (finalizeOrder env category raw).import_error =
          some raw.importError := by
        simp [finalizeOrder, hraw]
      rw [herr] at he
      rw [← Option.some.inj he]
      exact hP
    · have herr : (finalizeOrder env category raw).import_error = none := by
        simp [finalizeOrder, hraw]
      rw [herr] at he
      exact Option.noConfusion he

/-- The concrete batch for the C8 witness: imported under the explicit RISK
category, its only row has no tags (and a bad date and email) yet its error
string never mentions missing tags. -/
def csvExplicit : String := "Name\n1"

def ordersExplicit : List Order :=
  match parseShopifyCSV envC csvExplicit .RISK with
  | .ok os => os
  | .error _ => []

def ordExplicit : Order := ordersExplicit.headD baseOrder

def errExplicit : String := ordExplicit.import_error.getD ""

/-- C8, witness. -/
theorem C8_wit : jsIncludes errExplicit "Missing Tags" = false :=
  C8_thm.2 envC csvExplicit .RISK ordersExplicit (by decide) (by decide)
    ordExplicit (by decide) errExplicit (by decide)

/-! ## Claim C9 -/

/-- C9: in AUTO mode the case-folded tags are inspected in the fixed priority
order won > lost > submitted/review > chargeback/dispute > fraud/risk/high;
the first match fully determines the classification (a won-tag outranks a
chargeback-tag), and with no match the order keeps `disputeStatus = NONE`
and the native risk hint. -/
theorem C9_thm (tags : List String) (nativeRisk : Bool) :
    ((tags.map jsLower).any (fun t => jsIncludes t "won") = true →
        classifyCSV .AUTO tags nativeRisk = ⟨.WON, nativeRisk, .DISPUTE_WON, ""⟩) ∧
    ((tags.map jsLower).any (fun t => jsIncludes t "won") = false →
      (tags.map jsLower).any (fun t => jsIncludes t "lost") = true →
        classifyCSV .AUTO tags nativeRisk = ⟨.LOST, nativeRisk, .DISPUTE_LOST, ""⟩) ∧
    ((tags.map jsLower).any (fun t => jsIncludes t "won") = false →
      (tags.map jsLower).any (fun t => jsIncludes t "lost") = false →
      (tags.map jsLower).any
          (fun t => jsIncludes t "submitted" || jsIncludes t "review") = true →
        classifyCSV .AUTO tags nativeRisk =
          ⟨.UNDER_REVIEW, nativeRisk, .DISPUTE_SUBMITTED, ""⟩) ∧
    ((tags.map jsLower).any (fun t => jsIncludes t "won") = false →
      (tags.map jsLower).any (fun t => jsIncludes t "lost") = false →
      (tags.map jsLower).any
          (fun t => jsIncludes t "submitted" || jsIncludes t "review") = false →
      (tags.map jsLower).any
          (fun t => jsIncludes t "chargeback" || jsIncludes t "dispute") = true →
        classifyCSV .AUTO tags nativeRisk =
          ⟨.NEEDS_RESPONSE, true, .DISPUTE_OPEN, ""⟩) ∧
    ((tags.map jsLower).any (fun t => jsIncludes t "won") = false →
      (tags.map jsLower).any (fun t => jsIncludes t "lost") = false →
      (tags.map jsLower).any
          (fun t => jsIncludes t "submitted" || jsIncludes t "review") = false →
      (tags.map jsLower).any
          (fun t => jsIncludes t "chargeback" || jsIncludes t "dispute") = false →
      (tags.map jsLower).any
          (fun t => jsIncludes t "fraud" || jsIncludes t "risk" || jsIncludes t "high") =
          true →
        classifyCSV .AUTO tags nativeRisk = ⟨.NONE, true, .RISK, ""⟩) ∧
    ((tags.map jsLower).any (fun t => jsIncludes t "won") = false →
      (tags.map jsLower).any (fun t => jsIncludes t "lost") = false →
      (tags.map jsLower).any
          (fun t => jsIncludes t "submitted" || jsIncludes t "review") = false →
      (tags.map jsLower).any
          (fun t => jsIncludes t "chargeback" || jsIncludes t "dispute") = false →
      (tags.map jsLower).any
          (fun t => jsIncludes t "fraud" || jsIncludes t "risk" || jsIncludes t "high") =
          false →
        classifyCSV .AUTO tags nativeRisk = ⟨.NONE, nativeRisk, .AUTO, ""⟩) := by
  refine ⟨?_, ?_, ?_, ?_, ?_, ?_⟩
  · intro h1
    simp [classifyCSV, h1]
  · intro h1 h2
    simp [classifyCSV, h1, h2]
  · intro h1 h2 h3
    simp [classifyCSV, h1, h2, h3]
  · intro h1 h2 h3 h4
    simp [classifyCSV, h1, h2, h3, h4]
  · intro h1 h2 h3 h4 h5
    simp [classifyCSV, h1, h2, h3, h4, h5]
  · intro h1 h2 h3 h4 h5
    simp [classifyCSV, h1, h2, h3, h4, h5]

/-- C9, witness: a tag containing "won" outranks a chargeback tag. -/
theorem C9_wit :
    classifyCSV .AUTO ["Won", "chargeback"] false =
      ⟨.WON, false, .DISPUTE_WON, ""⟩ :=
  (C9_thm ["Won", "chargeback"] false).1 (by decide)

end FraudGuard
